import Mathlib

/-!
Verification of the LHC flash-loan arbitrage core against its design notes.

Shallow embedding conventions:
* JavaScript `number` values are modelled as rationals (`ℚ`);
* JavaScript `bigint` values are modelled as integers (`ℤ`), with division
  `Int.tdiv` (bigint division truncates toward zero), or as naturals (`ℕ`)
  where the source value is a uint reserve or liquidity measure;
* fallible RPC reads are modelled as `Except String` values supplied by an
  environment record, one field per external call site;
* `async` methods whose only suspension points are those reads become pure
  functions of the environment.

Sources embedded below (file, symbol):
* apps/api/src/config/runtimeConfig.ts — RuntimeConfig, isLiveMode;
* apps/api/src/bots/BotManager.ts — PriceOracle.findSpreadFromPrices,
  PriceOracle.getAerodromePoolPrice, SCAN_GROUPS, FlashLoanArb.run,
  FlashLoanArb.executeOpportunity, BaseStrategy.start, BaseStrategy.stop;
* apps/api/src/liquidity.ts — LiquidityMonitor.getSafeTradeSize;
* apps/api/src/services/ArbitrageScanner.ts — ArbitrageScanner.scan;
* apps/api/src/contracts/FlashArbClient.ts — FlashArbClient.executeFlashLoan;
* the FlashArb Solidity contract — executeOperation repayment check.
-/

namespace LHC

/-! ## Runtime configuration (config/runtimeConfig.ts) -/

structure RuntimeConfig where
  flashArbContractAddress : Option String
  liveMode : Bool
  botWalletAddress : Option String
  deriving DecidableEq

/-- `isLiveMode()` from runtimeConfig.ts line 65: reads the process-wide flag. -/
def isLiveMode (c : RuntimeConfig) : Bool := c.liveMode

/-- `setLiveMode(enabled)` from runtimeConfig.ts line 43. -/
def setLiveMode (c : RuntimeConfig) (enabled : Bool) : RuntimeConfig :=
  { c with liveMode := enabled }

/-! ## Price Oracle data model (BotManager.ts lines 460-482) -/

inductive Dex
  | uniswapV3
  | aerodrome
  deriving DecidableEq

structure PoolPrice where
  poolAddress : String
  fee : ℚ
  sqrtPriceX96 : ℕ
  price : ℚ
  liquidity : ℕ
  token0 : String
  token1 : String
  tick : ℤ
  dex : Dex
  deriving DecidableEq

/-- The record `PriceOracle.findSpreadFromPrices` returns
(BotManager.ts lines 472-482; the field `exists` is renamed `oppExists`,
`exists` being reserved in Lean). -/
structure ArbSpreadResult where
  oppExists : Bool
  spreadBps : ℚ
  netSpreadBps : ℚ
  buyPool : Option String
  sellPool : Option String
  buyPoolFee : ℚ
  sellPoolFee : ℚ
  estimatedProfitPercent : ℚ
  deriving DecidableEq

/-- The all-zero record returned when fewer than two prices are available
(BotManager.ts lines 639-641). -/
def emptySpreadResult : ArbSpreadResult :=
  { oppExists := false, spreadBps := 0, netSpreadBps := 0, buyPool := none,
    sellPool := none, buyPoolFee := 0, sellPoolFee := 0,
    estimatedProfitPercent := 0 }

/-- The min-price selection loop of findSpreadFromPrices (BotManager.ts
lines 643-646): first element wins ties, strict comparison. -/
def minPricePool (first : PoolPrice) (prices : List PoolPrice) : PoolPrice :=
  prices.foldl (fun m p => if p.price < m.price then p else m) first

/-- The max-price selection loop of findSpreadFromPrices (BotManager.ts
lines 643-647). -/
def maxPricePool (first : PoolPrice) (prices : List PoolPrice) : PoolPrice :=
  prices.foldl (fun m p => if p.price > m.price then p else m) first

/-- Fixed external borrowing premium, bps (BotManager.ts line 651). -/
def flashLoanPremiumBps : ℚ := 5

/-- `PriceOracle.findSpreadFromPrices` (BotManager.ts lines 638-666). -/
def findSpreadFromPrices : List PoolPrice → ArbSpreadResult
  | [] => emptySpreadResult
  | [_] => emptySpreadResult
  | p0 :: p1 :: rest =>
    let prices := p0 :: p1 :: rest
    let minP := minPricePool p0 prices
    let maxP := maxPricePool p0 prices
    let spreadBps := (maxP.price - minP.price) / minP.price * 10000
    let totalFeeBps := minP.fee / 100 + maxP.fee / 100 + flashLoanPremiumBps
    let netSpreadBps := spreadBps - totalFeeBps
    let oppExists := decide (netSpreadBps > 5)
    { oppExists := oppExists
      spreadBps := spreadBps
      netSpreadBps := netSpreadBps
      buyPool := if oppExists then some minP.poolAddress else none
      sellPool := if oppExists then some maxP.poolAddress else none
      buyPoolFee := minP.fee
      sellPoolFee := maxP.fee
      estimatedProfitPercent := netSpreadBps / 100 }

/-- The net-spread arithmetic of findSpreadFromPrices (BotManager.ts lines
650-653) with the premium abstracted as a parameter, for stating how the
result varies with fees and premium. -/
def netSpreadFormula (minPrice maxPrice buyFee sellFee premium : ℚ) : ℚ :=
  (maxPrice - minPrice) / minPrice * 10000 - (buyFee / 100 + sellFee / 100 + premium)

/-! ## Aerodrome pool reads (BotManager.ts lines 579-608) -/

structure AeroMeta where
  token0 : String
  token1 : String
  deriving DecidableEq

/-- Environment for one `getAerodromePoolPrice` call: the metadata read
(`getAeroMeta`) and the `getReserves` read, each of which may throw. -/
structure AeroPoolEnv where
  meta : Except String AeroMeta
  getReserves : Except String (ℕ × ℕ × ℕ)

/-- `PriceOracle.getAerodromePoolPrice` (BotManager.ts lines 579-608): a throw
from either read is caught and yields null; zero reserves yield null before
the division is reached. -/
def getAerodromePoolPrice (poolAddress : String) (env : AeroPoolEnv) :
    Option PoolPrice :=
  match env.meta, env.getReserves with
  | Except.ok meta, Except.ok (reserve0, reserve1, _) =>
    if reserve0 = 0 ∨ reserve1 = 0 then none
    else
      some { poolAddress := poolAddress
             fee := 30
             sqrtPriceX96 := 0
             price := (reserve1 : ℚ) / (reserve0 : ℚ)
             liquidity := reserve0
             token0 := meta.token0
             token1 := meta.token1
             tick := 0
             dex := Dex.aerodrome }
  | _, _ => none

/-! ## Liquidity Depth Monitor (liquidity.ts) -/

structure PoolDepth where
  poolAddress : String
  liquidity : ℕ
  sqrtPriceX96 : ℕ
  tick : ℤ
  deriving DecidableEq

/-- `LiquidityMonitor.getSafeTradeSize` (liquidity.ts lines 51-53): bigint
arithmetic on a uint128 liquidity value. -/
def getSafeTradeSize (depth : PoolDepth) (maxImpactPercent : ℕ) : ℕ :=
  depth.liquidity * maxImpactPercent / 100

/-! ## Scan groups (BotManager.ts lines 415-454) -/

structure ScanGroup where
  asset : String
  assetAddress : String
  target : String
  targetAddress : String
  uniV3Pools : List String
  aerodromePools : List String
  decimalAdjustment : ℚ
  deriving DecidableEq

/-- The first entry of SCAN_GROUPS (BotManager.ts lines 426-432). -/
def wethUsdcGroup : ScanGroup :=
  { asset := "WETH", assetAddress := "0x4200000000000000000000000000000000000006"
    target := "USDC", targetAddress := "0x833589fCD6eDb6E08f4c7C32D4f71b54bdA02913"
    uniV3Pools := ["0xd0b53D9277642d899DF5C87A3966A349A798F224",
                   "0x4C36388bE6F6544901f4095493B0743bF00902c6",
                   "0x8ad86F1b4B8D17D00Cf89B91d6dc95F64f5fDe4f"]
    aerodromePools := ["0xcDAC0d6c6C59727a65F871236188350531885C43"]
    decimalAdjustment := 10 ^ 12 }

/-- The static `SCAN_GROUPS` table (BotManager.ts lines 425-454), with the
Base mainnet addresses inlined from BASE_TOKENS, BASE_POOLS and
AERODROME_POOLS (lines 377-409). -/
def SCAN_GROUPS : List ScanGroup :=
  [ wethUsdcGroup,
    { asset := "WETH", assetAddress := "0x4200000000000000000000000000000000000006"
      target := "USDbC", targetAddress := "0xd9aAEc86B65D86f6A7B5B1b0c42FFA531710b6CA"
      uniV3Pools := ["0x4b0Aaf3EBb163DD45F663b38b6d93f6093EBC2d3",
                     "0x82a8c1511d48F0CCB7e2b054A37580b5252Bb421"]
      aerodromePools := ["0xB4885Bc63399BF5518b994c1d0C153334Ee579D0"]
      decimalAdjustment := 10 ^ 12 },
    { asset := "WETH", assetAddress := "0x4200000000000000000000000000000000000006"
      target := "DAI", targetAddress := "0x50c5725949A6F0c72E6C4a641F24049A917DB0Cb"
      uniV3Pools := ["0x927860797d07b1C46fbBe7f6f73D45C7E1BFBb27"]
      aerodromePools := []
      decimalAdjustment := 1 },
    { asset := "cbETH", assetAddress := "0x2Ae3F1Ec7F1F5012CFEab0185bfc7aa3cf0DEc22"
      target := "WETH", targetAddress := "0x4200000000000000000000000000000000000006"
      uniV3Pools := ["0x257FcbAE4Ac6B26A02E4FC5e1a11e4174b5ce395"]
      aerodromePools := []
      decimalAdjustment := 1 } ]

/-! ## Arbitrage Scanner (services/ArbitrageScanner.ts) -/

/-- One entry of the `scanAllGroups()` result (BotManager.ts lines 668-676). -/
structure GroupScanResult where
  result : ArbSpreadResult
  pairLabel : String
  poolCount : ℕ
  deriving DecidableEq

/-- The `ArbitrageOpportunity` record the Scanner emits
(ArbitrageScanner.ts lines 25-45). -/
structure ScannerOpportunity where
  id : String
  timestamp : ℕ
  blockNumber : ℕ
  asset : String
  assetSymbol : String
  targetToken : String
  targetSymbol : String
  buyPool : String
  sellPool : String
  buyPoolFee : ℚ
  sellPoolFee : ℚ
  spreadBps : ℚ
  netSpreadBps : ℚ
  estimatedProfitUsd : ℚ
  recommendedSize : ℤ
  ethPriceUsd : ℚ
  isExecutable : Bool
  pairLabel : String
  deriving DecidableEq

/-- Configuration defaults (ArbitrageScanner.ts lines 17-19): the values the
env variables default to. -/
def MIN_PROFIT_USD : ℚ := 25

def MIN_NET_SPREAD_BPS : ℚ := 16

def MAX_FLASH_LOAN_USD : ℚ := 10000

/-- Environment of one `ArbitrageScanner.scan()` call: every external read the
method performs, in program order. `ethPriceUsd` is the `getWethUsdcPrice`
result (none models null; the code also rejects a price of zero, since zero is
falsy in JavaScript). `depthFetch` is the pair of `getPoolDepth` results for
the buy and sell legs; `Except.error` models the caught rejection of the
surrounding Promise.all, which leaves both depths undefined. -/
structure ScanEnv where
  blockNumber : ℕ
  now : ℕ
  gasAcceptable : Bool
  ethPriceUsd : Option ℚ
  groupResults : List GroupScanResult
  depthFetch : Except String (Option PoolDepth × Option PoolDepth)

/-- The depths scan works with after the try/catch around the depth fetch
(ArbitrageScanner.ts lines 107-116). -/
def scanDepths (env : ScanEnv) : Option PoolDepth × Option PoolDepth :=
  match env.depthFetch with
  | Except.ok ds => ds
  | Except.error _ => (none, none)

/-- The best-result selection loop of `scan()` (ArbitrageScanner.ts lines
91-94): start from the head, keep the strictly greater net spread. -/
def bestGroupResult (g0 : GroupScanResult) (gs : List GroupScanResult) : GroupScanResult :=
  (g0 :: gs).foldl
    (fun b r => if r.result.netSpreadBps > b.result.netSpreadBps then r else b) g0

/-- The depth-derived safe size of `scan()` (ArbitrageScanner.ts lines
131-141): the smaller liquidity of the two legs, put through
`getSafeTradeSize` at a 20 percent impact cap. -/
def depthSafeSize (bd sd : PoolDepth) : ℕ :=
  let minLiquidity := if bd.liquidity < sd.liquidity then bd.liquidity else sd.liquidity
  getSafeTradeSize { bd with liquidity := minLiquidity } 20

/-- The sizing block of `scan()` (ArbitrageScanner.ts lines 118-153): start at
MAX_FLASH_LOAN_USD, double it for spreads over 15 bps, and when both depths
are present reduce to the depth-derived safe size if that is smaller. -/
def computeTargetSizeUsd (netSpreadBps ethPriceUsd : ℚ)
    (buyPoolDepth sellPoolDepth : Option PoolDepth) : ℚ :=
  let base := MAX_FLASH_LOAN_USD
  let target := if netSpreadBps > 15 then MAX_FLASH_LOAN_USD * 2 else base
  match buyPoolDepth, sellPoolDepth with
  | some bd, some sd =>
    let poolMaxSize := depthSafeSize bd sd
    let poolMaxSizeUsd := ((poolMaxSize : ℚ) / 10 ^ 18) * ethPriceUsd
    if poolMaxSizeUsd < target then poolMaxSizeUsd else target
  | _, _ => target

/-- `BigInt(Math.floor((targetSizeUsd / ethPriceUsd) * 1e18))`
(ArbitrageScanner.ts line 155). `Rat.floor` is the floor toward negative
infinity, as Math.floor is. -/
def computeRecommendedSize (targetSizeUsd ethPriceUsd : ℚ) : ℤ :=
  Rat.floor (targetSizeUsd / ethPriceUsd * 10 ^ 18)

/-- `ArbitrageScanner.scan()` (ArbitrageScanner.ts lines 58-211), as a function
of the per-call environment and the scan counter. Gate order follows the
source: gas price, reference price, best group selection, the `exists` and
pool-address checks, the scan-group lookup, sizing, the minimum-spread gate,
and the minimum-profit gate. -/
def scan (scanCount : ℕ) (env : ScanEnv) : Option ScannerOpportunity :=
  if env.gasAcceptable = false then none
  else
    match env.ethPriceUsd with
    | none => none
    | some ethPriceUsd =>
      if ethPriceUsd = 0 then none
      else
        match env.groupResults with
        | [] => none
        | g0 :: gs =>
          let bestResult := bestGroupResult g0 gs
          if bestResult.result.oppExists = false then none
          else
            match bestResult.result.buyPool, bestResult.result.sellPool with
            | some buyPool, some sellPool =>
              match SCAN_GROUPS.find? (fun g => g.asset ++ "/" ++ g.target == bestResult.pairLabel) with
              | none => none
              | some group =>
                let depths := scanDepths env
                let targetSizeUsd :=
                  computeTargetSizeUsd bestResult.result.netSpreadBps ethPriceUsd depths.1 depths.2
                let recommendedSize := computeRecommendedSize targetSizeUsd ethPriceUsd
                if bestResult.result.netSpreadBps < MIN_NET_SPREAD_BPS then none
                else
                  let flashAmountEth := (recommendedSize : ℚ) / 10 ^ 18
                  let estimatedProfitUsd :=
                    flashAmountEth * ethPriceUsd * (bestResult.result.netSpreadBps / 10000)
                  if estimatedProfitUsd < MIN_PROFIT_USD then none
                  else
                    some { id := "arb-" ++ toString env.now ++ "-" ++ toString scanCount
                           timestamp := env.now
                           blockNumber := env.blockNumber
                           asset := group.assetAddress
                           assetSymbol := group.asset
                           targetToken := group.targetAddress
                           targetSymbol := group.target
                           buyPool := buyPool
                           sellPool := sellPool
                           buyPoolFee := bestResult.result.buyPoolFee
                           sellPoolFee := bestResult.result.sellPoolFee
                           spreadBps := bestResult.result.spreadBps
                           netSpreadBps := bestResult.result.netSpreadBps
                           estimatedProfitUsd := estimatedProfitUsd
                           recommendedSize := recommendedSize
                           ethPriceUsd := ethPriceUsd
                           isExecutable := true
                           pairLabel := bestResult.pairLabel }
            | _, _ => none

/-! ## Execution Client (contracts/FlashArbClient.ts) -/

/-- `FlashLoanParams` (FlashArbClient.ts lines 77-88). -/
structure FlashLoanParams where
  asset : String
  amount : ℤ
  targetToken : String
  poolFee : ℚ
  minAmountOut : ℤ
  deriving DecidableEq

/-- `ExecutionResult` (FlashArbClient.ts lines 90-96). -/
structure ExecutionResult where
  success : Bool
  txHash : String
  gasUsed : Option ℕ
  error : Option String
  deriving DecidableEq

/-- The part of a transaction receipt `executeFlashLoan` inspects:
`reverted` models `receipt.status == 'reverted'`. -/
structure TxReceipt where
  reverted : Bool
  gasUsed : ℕ
  deriving DecidableEq

/-- Environment of one `executeFlashLoan` call: one field per external
call site, in program order. An `Except.error` models that call throwing. -/
structure ExecEnv where
  botWalletConfigured : Bool
  pausedRead : Except String Bool
  isExecutorRead : Except String Bool
  gasPriceRead : Except String Bool
  sufficientGasRead : Except String Bool
  estimateGas : Except String ℕ
  writeContract : Except String String
  waitForReceipt : Except String TxReceipt

/-- `FlashArbClient.isBotAuthorized` (FlashArbClient.ts lines 135-146):
returns false without a read when the wallet is not configured. -/
def isBotAuthorized (env : ExecEnv) : Except String Bool :=
  if env.botWalletConfigured = false then Except.ok false else env.isExecutorRead

/-- The sentinel hash returned when no transaction was submitted. -/
def sentinelTxHash : String := "0x0"

/-- The body of `executeFlashLoan` inside its try block (FlashArbClient.ts
lines 181-292), with each await written as a match: the `Except.error`
arms propagate a thrown error to the outer catch. The inner try/catch
around gas estimation (lines 241-257) is the match on `env.estimateGas`,
whose failure is converted to a result rather than rethrown. -/
def executeFlashLoanCore (env : ExecEnv) (_params : FlashLoanParams) :
    Except String ExecutionResult :=
  if env.botWalletConfigured = false then
    Except.ok { success := false, txHash := sentinelTxHash, gasUsed := none,
                error := some "Bot wallet not configured (BOT_PRIVATE_KEY missing)" }
  else
    match env.pausedRead with
    | Except.error msg => Except.error msg
    | Except.ok isPaused =>
      if isPaused then
        Except.ok { success := false, txHash := sentinelTxHash, gasUsed := none,
                    error := some "Contract is paused" }
      else
        match isBotAuthorized env with
        | Except.error msg => Except.error msg
        | Except.ok isAuthorized =>
          if isAuthorized = false then
            Except.ok { success := false, txHash := sentinelTxHash, gasUsed := none,
                        error := some "Bot wallet is not an authorized executor" }
          else
            match env.gasPriceRead with
            | Except.error msg => Except.error msg
            | Except.ok gasOk =>
              if gasOk = false then
                Except.ok { success := false, txHash := sentinelTxHash, gasUsed := none,
                            error := some "Gas price exceeds maximum" }
              else
                match env.sufficientGasRead with
                | Except.error msg => Except.error msg
                | Except.ok hasGas =>
                  if hasGas = false then
                    Except.ok { success := false, txHash := sentinelTxHash,
                                gasUsed := none,
                                error := some "Bot wallet has insufficient ETH for gas" }
                  else
                    match env.estimateGas with
                    | Except.error msg =>
                      Except.ok { success := false, txHash := sentinelTxHash,
                                  gasUsed := none,
                                  error := some ("Gas estimation failed (arb may not be profitable): " ++ msg) }
                    | Except.ok gasEstimate =>
                      let _gasLimit := gasEstimate * 130 / 100
                      match env.writeContract with
                      | Except.error msg => Except.error msg
                      | Except.ok txHash =>
                        match env.waitForReceipt with
                        | Except.error msg => Except.error msg
                        | Except.ok receipt =>
                          if receipt.reverted then
                            Except.ok { success := false, txHash := txHash,
                                        gasUsed := some receipt.gasUsed,
                                        error := some "Transaction reverted - arbitrage not profitable" }
                          else
                            Except.ok { success := true, txHash := txHash,
                                        gasUsed := some receipt.gasUsed, error := none }

/-- `FlashArbClient.executeFlashLoan` (FlashArbClient.ts lines 180-300): the
outer catch turns any thrown error into a failed result with the sentinel
hash. -/
def executeFlashLoan (env : ExecEnv) (params : FlashLoanParams) : ExecutionResult :=
  match executeFlashLoanCore env params with
  | Except.ok r => r
  | Except.error msg =>
    { success := false, txHash := sentinelTxHash, gasUsed := none, error := some msg }

/-- All six pre-flight gates pass: control reaches `writeContract`. -/
def preflightPassed (env : ExecEnv) : Bool :=
  env.botWalletConfigured &&
  (match env.pausedRead with | Except.ok false => true | _ => false) &&
  (match isBotAuthorized env with | Except.ok true => true | _ => false) &&
  (match env.gasPriceRead with | Except.ok true => true | _ => false) &&
  (match env.sufficientGasRead with | Except.ok true => true | _ => false) &&
  (match env.estimateGas with | Except.ok _ => true | _ => false)

/-- A transaction was actually submitted during the call: every gate passed
and `writeContract` returned a hash. -/
def txSubmitted (env : ExecEnv) : Bool :=
  preflightPassed env &&
  (match env.writeContract with | Except.ok _ => true | _ => false)

/-! ## On-chain repayment check (FlashArb.sol, executeOperation) -/

/-- The profitability requirement of `FlashArb.executeOperation`
(`require(amountFinal >= amount + premium)`): the final swap output must
repay the loan plus its premium. -/
def executeOperationRepays (amount premium amountFinal : ℤ) : Bool :=
  decide (amount + premium ≤ amountFinal)

/-! ## Strategy lifecycle (bots/BaseStrategy.ts, bots/FlashLoanArb.ts,
both concatenated into BotManager.ts) -/

inductive BotStatus
  | idle
  | running
  | paused
  | error
  deriving DecidableEq

/-- The mutable state of one FlashLoanArb strategy: the BaseStrategy fields
(status, pnl, interval) and the FlashLoanArb counters. `intervalActive`
models `this.interval !== null`. -/
structure StratState where
  status : BotStatus
  pnl : ℚ
  intervalActive : Bool
  executionInProgress : Bool
  consecutiveFailures : ℕ
  opportunitiesFound : ℕ
  tradesExecuted : ℕ
  successfulTrades : ℕ
  deriving DecidableEq

/-- `maxConsecutiveFailures` (BotManager.ts line 53). -/
def maxConsecutiveFailures : ℕ := 10

/-- `BaseStrategy.stop` (BotManager.ts lines 248-255): idempotent, cancels
the interval. -/
def stop (s : StratState) : StratState :=
  { s with status := BotStatus.idle, intervalActive := false }

/-- `BaseStrategy.start` (BotManager.ts lines 236-246): no-op when already
running, otherwise transitions to running and installs the interval. -/
def start (s : StratState) : StratState :=
  if s.status = BotStatus.running then s
  else { s with status := BotStatus.running, intervalActive := true }

/-- Outcome of the `arbitrageScanner.scan()` call a tick performs:
`scanError` models the awaited call (or the preceding block-number read)
throwing, which the catch block of `run` handles. -/
inductive ScanOutcome
  | scanError (msg : String)
  | noOpportunity
  | opportunity (opp : ScannerOpportunity)

/-- Environment of one tick of `FlashLoanArb.run`: the global runtime config,
the scan outcome, the two configuration predicates checked by
`executeOpportunity`, and the execution-client environment. -/
structure TickEnv where
  config : RuntimeConfig
  scanOutcome : ScanOutcome
  botWalletConfigured : Bool
  flashArbConfigured : Bool
  execEnv : ExecEnv

/-- Observable actions of one tick, recorded in order. -/
inductive TickEvent
  | scanRequested
  | simulatedFill (profitUsd : ℚ)
  | flashLoanExecuted (params : FlashLoanParams)
  | autoPaused
  deriving DecidableEq

def isFlashLoanExecutedEvent : TickEvent → Bool
  | TickEvent.flashLoanExecuted _ => true
  | _ => false

/-- The `FlashLoanParams` built by `FlashLoanArb.executeOpportunity`
(BotManager.ts lines 136-151): slippage-protected minimum output
`size + size * (premiumBps + slippageBps) / 10000` in bigint arithmetic. -/
def computeMinAmountOut (recommendedSize : ℤ) : ℤ :=
  recommendedSize + Int.tdiv (recommendedSize * (5 + 50)) 10000

def execParams (opp : ScannerOpportunity) : FlashLoanParams :=
  { asset := opp.asset
    amount := opp.recommendedSize
    targetToken := opp.targetToken
    poolFee := opp.buyPoolFee
    minAmountOut := computeMinAmountOut opp.recommendedSize }

/-- `FlashLoanArb.executeOpportunity` (BotManager.ts lines 118-182). The
`executionInProgress` flag is set on entry and cleared in the finally block;
its net effect within one completed call is nil, so the returned state keeps
the caller's value. The two configuration checks log and return without
touching the failure counter. -/
def executeOpportunity (s : StratState) (env : TickEnv) (opp : ScannerOpportunity) :
    StratState × List TickEvent :=
  if env.botWalletConfigured = false then (s, [])
  else if env.flashArbConfigured = false then (s, [])
  else
    let params := execParams opp
    let result := executeFlashLoan env.execEnv params
    let s1 := { s with tradesExecuted := s.tradesExecuted + 1 }
    if result.success then
      ({ s1 with consecutiveFailures := 0
                 successfulTrades := s1.successfulTrades + 1
                 pnl := s1.pnl + opp.estimatedProfitUsd },
       [TickEvent.flashLoanExecuted params])
    else
      let s2 := { s1 with consecutiveFailures := s1.consecutiveFailures + 1 }
      if maxConsecutiveFailures ≤ s2.consecutiveFailures then
        (stop s2, [TickEvent.flashLoanExecuted params, TickEvent.autoPaused])
      else
        (s2, [TickEvent.flashLoanExecuted params])

/-- `FlashLoanArb.run` (BotManager.ts lines 62-113): one tick. Returns the
updated state and the observable actions of the tick. The first guard is the
status check (line 63), the second the in-flight execution flag (line 66);
a dry-run fill credits 70 percent of the estimated profit (line 97). -/
def run (s : StratState) (env : TickEnv) : StratState × List TickEvent :=
  if s.status ≠ BotStatus.running then (s, [])
  else if s.executionInProgress then (s, [])
  else
    match env.scanOutcome with
    | ScanOutcome.scanError _ =>
      let s1 := { s with consecutiveFailures := s.consecutiveFailures + 1 }
      if maxConsecutiveFailures ≤ s1.consecutiveFailures then
        (stop s1, [TickEvent.scanRequested, TickEvent.autoPaused])
      else
        (s1, [TickEvent.scanRequested])
    | ScanOutcome.noOpportunity => (s, [TickEvent.scanRequested])
    | ScanOutcome.opportunity opp =>
      let s1 := { s with consecutiveFailures := 0
                         opportunitiesFound := s.opportunitiesFound + 1 }
      if isLiveMode env.config = false then
        ({ s1 with pnl := s1.pnl + opp.estimatedProfitUsd * (7 / 10) },
         [TickEvent.scanRequested,
          TickEvent.simulatedFill (opp.estimatedProfitUsd * (7 / 10))])
      else
        let stepped := executeOpportunity s1 env opp
        (stepped.1, TickEvent.scanRequested :: stepped.2)

/-! ## Interleaving model for tick re-entrancy (BotManager.ts lines 62-75)

A tick of `run` suspends at its awaits; the first, before any state change,
are the block-number read and the `arbitrageScanner.scan()` call. While one
tick is suspended there, the 10-second interval can enter `run` again. The
guard a fresh entry evaluates is exactly the status check and the
`executionInProgress` flag, and nothing before the scan await mutates the
strategy state, so entering tick two sees the same guard state as tick one. -/

inductive TickPhase
  | notStarted
  | awaitingScan
  | finished
  deriving DecidableEq

/-- The guard of `run` (BotManager.ts lines 63-68): a fresh entry proceeds to
the scan iff the strategy is running and no execution is in flight. -/
def runGuardPasses (s : StratState) : Bool :=
  decide (s.status = BotStatus.running) && !s.executionInProgress

/-- Two interleaved invocations of `run` on one strategy: `strat` is the
shared state, `scansInFlight` counts scans started and not yet resolved. -/
structure TwoTickState where
  strat : StratState
  phase1 : TickPhase
  phase2 : TickPhase
  scansInFlight : ℕ
  deriving DecidableEq

/-- One invocation (tick one when `first`, else tick two) runs from entry up
to its scan await: it either passes the guard — starting a scan, with no
mutation of the strategy state before the await — or returns at the guard. -/
def tickEnter (c : TwoTickState) (first : Bool) : TwoTickState :=
  if runGuardPasses c.strat then
    if first then
      { c with phase1 := TickPhase.awaitingScan, scansInFlight := c.scansInFlight + 1 }
    else
      { c with phase2 := TickPhase.awaitingScan, scansInFlight := c.scansInFlight + 1 }
  else
    if first then { c with phase1 := TickPhase.finished }
    else { c with phase2 := TickPhase.finished }

/-! ## Concrete fixtures used in boundary and counterexample statements -/

def wethUsdcBuyPool : String := "0xd0b53D9277642d899DF5C87A3966A349A798F224"

def wethUsdcSellPool : String := "0x4C36388bE6F6544901f4095493B0743bF00902c6"

/-- A WETH/USDC group result with the given net spread (used only at values
above the 5 bps oracle epsilon, so oppExists is true): gross spread is
net + 15 bps, matching two 500-unit pool fees (5 bps each) and the 5 bps
premium. -/
def wethUsdcGroupResult (net : ℚ) : GroupScanResult :=
  { result :=
    { oppExists := true
      spreadBps := net + 15
      netSpreadBps := net
      buyPool := some wethUsdcBuyPool
      sellPool := some wethUsdcSellPool
      buyPoolFee := 500
      sellPoolFee := 500
      estimatedProfitPercent := net / 100 }
    pairLabel := "WETH/USDC"
    poolCount := 4 }

/-- A scan environment with acceptable gas, an ETH price of 2000 USD, one
group result at the given net spread, and no depth data for either leg. -/
def scanEnvNoDepth (net : ℚ) : ScanEnv :=
  { blockNumber := 100
    now := 0
    gasAcceptable := true
    ethPriceUsd := some 2000
    groupResults := [wethUsdcGroupResult net]
    depthFetch := Except.ok (none, none) }

/-- The opportunity `scan 1 (scanEnvNoDepth 16)` emits: net spread exactly at
the 16 bps floor, sized at 2 x MAX_FLASH_LOAN_USD = 20000 USD, which is
10 ETH at the 2000 USD reference price. -/
def oppAt16 : ScannerOpportunity :=
  { id := "arb-0-1"
    timestamp := 0
    blockNumber := 100
    asset := "0x4200000000000000000000000000000000000006"
    assetSymbol := "WETH"
    targetToken := "0x833589fCD6eDb6E08f4c7C32D4f71b54bdA02913"
    targetSymbol := "USDC"
    buyPool := wethUsdcBuyPool
    sellPool := wethUsdcSellPool
    buyPoolFee := 500
    sellPoolFee := 500
    spreadBps := 31
    netSpreadBps := 16
    estimatedProfitUsd := 32
    recommendedSize := 10 ^ 19
    ethPriceUsd := 2000
    isExecutable := true
    pairLabel := "WETH/USDC" }

/-- The opportunity `scan 1 (scanEnvNoDepth 20)` emits: depth unavailable for
both legs, yet sized at 20000 USD, twice the global cap. -/
def oppNoDepth20 : ScannerOpportunity :=
  { oppAt16 with
    spreadBps := 35
    netSpreadBps := 20
    estimatedProfitUsd := 40 }

/-- A strategy in the running state with no execution in flight. -/
def runningStratState : StratState :=
  { status := BotStatus.running
    pnl := 0
    intervalActive := true
    executionInProgress := false
    consecutiveFailures := 0
    opportunitiesFound := 0
    tradesExecuted := 0
    successfulTrades := 0 }

def twoTicksStart : TwoTickState :=
  { strat := runningStratState
    phase1 := TickPhase.notStarted
    phase2 := TickPhase.notStarted
    scansInFlight := 0 }

/-- An execution environment in which every pre-flight gate passes, the
transaction is submitted and a hash returned, but the receipt wait throws. -/
def receiptLostEnv : ExecEnv :=
  { botWalletConfigured := true
    pausedRead := Except.ok false
    isExecutorRead := Except.ok true
    gasPriceRead := Except.ok true
    sufficientGasRead := Except.ok true
    estimateGas := Except.ok 200000
    writeContract := Except.ok "0xabc123"
    waitForReceipt := Except.error "timed out waiting for transaction receipt" }

def sampleParams : FlashLoanParams :=
  { asset := "0x4200000000000000000000000000000000000006"
    amount := 10 ^ 19
    targetToken := "0x833589fCD6eDb6E08f4c7C32D4f71b54bdA02913"
    poolFee := 500
    minAmountOut := 10 ^ 19 + 55 * 10 ^ 15 }

/-- A single successful pool price (fee tier 500, price 1). -/
def lonePoolPrice : PoolPrice :=
  { poolAddress := wethUsdcBuyPool
    fee := 500
    sqrtPriceX96 := 0
    price := 1
    liquidity := 1000
    token0 := "0x4200000000000000000000000000000000000006"
    token1 := "0x833589fCD6eDb6E08f4c7C32D4f71b54bdA02913"
    tick := 0
    dex := Dex.uniswapV3 }

/-! ## Helper lemmas -/

theorem ratFloor_eq_floor (q : ℚ) : Rat.floor q = ⌊q⌋ := by
  rw [Rat.floor_def', Rat.floor_def]

theorem ratFloor_le (q : ℚ) : (Rat.floor q : ℚ) ≤ q := by
  rw [ratFloor_eq_floor]
  exact Int.floor_le q

theorem tdiv_natCast (m n : ℕ) : Int.tdiv (m : ℤ) (n : ℤ) = ((m / n : ℕ) : ℤ) := rfl

/-! ## Claim C9 -/

/-- Claim C9: for every constant-product (Aerodrome) pool read, if either
reserve is zero the Price Oracle returns absent (null) and never performs a
division by zero; otherwise the returned price equals reserve1 / reserve0
and is positive. -/
theorem aerodrome_zero_reserve_safety (addr : String) (env : AeroPoolEnv)
    (meta : AeroMeta) (r0 r1 ts : ℕ) :
    (env.meta = Except.ok meta → env.getReserves = Except.ok (r0, r1, ts) →
      (r0 = 0 ∨ r1 = 0) → getAerodromePoolPrice addr env = none) ∧
    (env.meta = Except.ok meta → env.getReserves = Except.ok (r0, r1, ts) →
      0 < r0 → 0 < r1 →
      ∃ p, getAerodromePoolPrice addr env = some p ∧
        p.price = (r1 : ℚ) / (r0 : ℚ) ∧ 0 < p.price) ∧
    ((∃ msg, env.getReserves = Except.error msg) →
      getAerodromePoolPrice addr env = none) := by
  refine ⟨?_, ?_, ?_⟩
  · intro hm hr hz
    simp [getAerodromePoolPrice, hm, hr, hz]
  · intro hm hr h0 h1
    have hcond : ¬(r0 = 0 ∨ r1 = 0) := by omega
    have hval : getAerodromePoolPrice addr env =
        some { poolAddress := addr, fee := 30, sqrtPriceX96 := 0,
               price := (r1 : ℚ) / (r0 : ℚ), liquidity := r0,
               token0 := meta.token0, token1 := meta.token1, tick := 0,
               dex := Dex.aerodrome } := by
      simp [getAerodromePoolPrice, hm, hr, hcond]
    refine ⟨_, hval, rfl, ?_⟩
    exact div_pos (by exact_mod_cast h1) (by exact_mod_cast h0)
  · rintro ⟨msg, hr⟩
    cases henv : env.meta <;> simp [getAerodromePoolPrice, henv, hr]

/-! ## Claim C7 -/

/-- Claim C7: for every executed opportunity, the slippage-protection
parameter minAmountOut passed to the contract is
`amount + amount * (5 + 50) / 10000` and is at least the borrowed amount
plus the 5 bps flash-loan premium plus the 50 bps slippage buffer, so a
final swap output meeting it satisfies the on-chain repayment check for
the loan plus its premium. -/
theorem min_amount_out_covers_repayment (a : ℤ) (opp : ScannerOpportunity) :
    ((execParams opp).minAmountOut = computeMinAmountOut opp.recommendedSize) ∧
    ((execParams opp).amount = opp.recommendedSize) ∧
    (0 ≤ a →
      a + Int.tdiv (a * 5) 10000 + Int.tdiv (a * 50) 10000 ≤ computeMinAmountOut a) ∧
    (∀ premium amountFinal : ℤ, 0 ≤ a → premium ≤ Int.tdiv (a * 5) 10000 →
      computeMinAmountOut a ≤ amountFinal →
      executeOperationRepays a premium amountFinal = true) := by
  refine ⟨rfl, rfl, ?_, ?_⟩
  · intro ha
    obtain ⟨n, rfl⟩ := Int.eq_ofNat_of_zero_le ha
    have h5 : Int.tdiv ((n : ℤ) * 5) 10000 = ((n * 5 / 10000 : ℕ) : ℤ) := by
      rw [show ((n : ℤ) * 5) = ((n * 5 : ℕ) : ℤ) by push_cast; ring]
      exact tdiv_natCast _ _
    have h50 : Int.tdiv ((n : ℤ) * 50) 10000 = ((n * 50 / 10000 : ℕ) : ℤ) := by
      rw [show ((n : ℤ) * 50) = ((n * 50 : ℕ) : ℤ) by push_cast; ring]
      exact tdiv_natCast _ _
    have h55 : Int.tdiv ((n : ℤ) * (5 + 50)) 10000 = ((n * 55 / 10000 : ℕ) : ℤ) := by
      rw [show ((n : ℤ) * (5 + 50)) = ((n * 55 : ℕ) : ℤ) by push_cast; ring]
      exact tdiv_natCast _ _
    rw [computeMinAmountOut, h5, h50, h55]
    have key : n + n * 5 / 10000 + n * 50 / 10000 ≤ n + n * 55 / 10000 := by omega
    exact_mod_cast key
  · intro premium amountFinal ha hprem hfinal
    obtain ⟨n, rfl⟩ := Int.eq_ofNat_of_zero_le ha
    have h5 : Int.tdiv ((n : ℤ) * 5) 10000 = ((n * 5 / 10000 : ℕ) : ℤ) := by
      rw [show ((n : ℤ) * 5) = ((n * 5 : ℕ) : ℤ) by push_cast; ring]
      exact tdiv_natCast _ _
    have h55 : Int.tdiv ((n : ℤ) * (5 + 50)) 10000 = ((n * 55 / 10000 : ℕ) : ℤ) := by
      rw [show ((n : ℤ) * (5 + 50)) = ((n * 55 : ℕ) : ℤ) by push_cast; ring]
      exact tdiv_natCast _ _
    rw [computeMinAmountOut, h55] at hfinal
    rw [h5] at hprem
    have hdivs : ((n * 5 / 10000 : ℕ) : ℤ) ≤ ((n * 55 / 10000 : ℕ) : ℤ) := by
      exact_mod_cast Nat.div_le_div_right (Nat.mul_le_mul_left n (by omega))
    rw [executeOperationRepays, decide_eq_true_eq]
    have hstep : ((n : ℤ)) + premium ≤ (n : ℤ) + ((n * 55 / 10000 : ℕ) : ℤ) := by
      have := hprem.trans hdivs
      omega
    exact hstep.trans hfinal

/-! ## Claim C6 -/

/-- Counterexample to claim C6 as stated: from a running strategy with no
execution in flight, tick one passes the guard of `run` and suspends at its
scan await without mutating the strategy state; tick two then also passes
the guard, so two scans of the same strategy are in flight at once. The
`executionInProgress` flag is false throughout, since it is only set inside
`executeOpportunity`, after a scan has completed. -/
theorem concurrent_scans_counterexample :
    (tickEnter (tickEnter twoTicksStart true) false).scansInFlight = 2 ∧
    (tickEnter (tickEnter twoTicksStart true) false).phase1 = TickPhase.awaitingScan ∧
    (tickEnter (tickEnter twoTicksStart true) false).phase2 = TickPhase.awaitingScan ∧
    twoTicksStart.strat.executionInProgress = false ∧
    (tickEnter twoTicksStart true).strat.executionInProgress = false := by
  refine ⟨?_, ?_, ?_, rfl, ?_⟩ <;>
    simp [tickEnter, twoTicksStart, runGuardPasses, runningStratState]

/-- Claim C6, amended: the per-strategy `executionInProgress` flag makes a
tick that would overlap an outstanding execution skip (return with no scan
and no state change); the guard a fresh tick evaluates is exactly that the
strategy is running and no execution is in flight, so a scan that is merely
awaited does not block a new tick. -/
theorem execution_overlap_guard (s : StratState) (env : TickEnv) :
    (s.executionInProgress = true → run s env = (s, [])) ∧
    (runGuardPasses s = true ↔
      (s.status = BotStatus.running ∧ s.executionInProgress = false)) := by
  constructor
  · intro h
    by_cases hst : s.status = BotStatus.running <;> simp [run, h, hst]
  · simp [runGuardPasses, Bool.and_eq_true, decide_eq_true_eq, Bool.not_eq_true']

/-! ## Claim C10 -/

/-- Claim C10, amended: `executeFlashLoan` converts every internal throw into
a failed `ExecutionResult` carrying the error text, and whenever no
transaction was submitted the sentinel hash is returned. (The converse —
that the sentinel is returned only when nothing was submitted — fails; see
the counterexample.) -/
theorem execution_errors_contained (env : ExecEnv) (params : FlashLoanParams) :
    (∀ msg, executeFlashLoanCore env params = Except.error msg →
      executeFlashLoan env params =
        { success := false, txHash := sentinelTxHash, gasUsed := none,
          error := some msg }) ∧
    (txSubmitted env = false → (executeFlashLoan env params).txHash = sentinelTxHash) := by
  constructor
  · intro msg h
    simp [executeFlashLoan, h]
  · intro h
    rcases env with ⟨wallet, paused, auth, gasp, suff, est, wr, rcpt⟩
    cases wallet
    · simp [executeFlashLoan, executeFlashLoanCore]
    · cases paused with
      | error m => simp [executeFlashLoan, executeFlashLoanCore]
      | ok b =>
        cases b
        · cases auth with
          | error m =>
            simp [executeFlashLoan, executeFlashLoanCore, isBotAuthorized]
          | ok b2 =>
            cases b2
            · simp [executeFlashLoan, executeFlashLoanCore, isBotAuthorized]
            · cases gasp with
              | error m => simp [executeFlashLoan, executeFlashLoanCore, isBotAuthorized]
              | ok b3 =>
                cases b3
                · simp [executeFlashLoan, executeFlashLoanCore, isBotAuthorized]
                · cases suff with
                  | error m =>
                    simp [executeFlashLoan, executeFlashLoanCore, isBotAuthorized]
                  | ok b4 =>
                    cases b4
                    · simp [executeFlashLoan, executeFlashLoanCore, isBotAuthorized]
                    · cases est with
                      | error m =>
                        simp [executeFlashLoan, executeFlashLoanCore, isBotAuthorized]
                      | ok g =>
                        cases wr with
                        | error m =>
                          simp [executeFlashLoan, executeFlashLoanCore, isBotAuthorized]
                        | ok hash =>
                          exact absurd h (by
                            simp [txSubmitted, preflightPassed, isBotAuthorized])
        · simp [executeFlashLoan, executeFlashLoanCore]

/-- Counterexample to claim C10 as stated: with every gate passing, the
transaction submitted (hash returned by writeContract) and only the receipt
wait throwing, the catch-all returns the sentinel hash even though a
transaction was submitted — so the sentinel is not returned exactly when no
transaction was ever submitted. -/
theorem sentinel_after_submission_counterexample :
    txSubmitted receiptLostEnv = true ∧
    executeFlashLoan receiptLostEnv sampleParams =
      { success := false, txHash := sentinelTxHash, gasUsed := none,
        error := some "timed out waiting for transaction receipt" } ∧
    sentinelTxHash ≠ "0xabc123" := by
  refine ⟨rfl, rfl, by decide⟩

/-! ## Claim C1 -/

/-- Claim C1: when the process-wide flag is in dry-run mode (isLiveMode
false), a tick of the FlashLoanArb strategy never invokes the
transaction-submission path (no flashLoanExecuted action occurs, for any
opportunity size or estimated profit), and a detected opportunity instead
increments PnL by 0.7 of the estimated profit. -/
theorem dry_run_isolation (s : StratState) (env : TickEnv) :
    (isLiveMode env.config = false →
      ((run s env).2.all fun e => !isFlashLoanExecutedEvent e) = true) ∧
    (∀ opp, isLiveMode env.config = false →
      env.scanOutcome = ScanOutcome.opportunity opp →
      s.status = BotStatus.running → s.executionInProgress = false →
      (run s env).1.pnl = s.pnl + opp.estimatedProfitUsd * (7 / 10)) := by
  constructor
  · intro hdry
    by_cases hst : s.status = BotStatus.running
    · by_cases hex : s.executionInProgress = true
      · simp [run, hst, hex]
      · rw [Bool.not_eq_true] at hex
        cases houtcome : env.scanOutcome with
        | scanError msg =>
          rcases le_or_lt maxConsecutiveFailures (s.consecutiveFailures + 1) with hceil | hceil
          · simp [run, hst, hex, houtcome, hceil, isFlashLoanExecutedEvent, stop]
          · simp [run, hst, hex, houtcome, not_le.mpr hceil, isFlashLoanExecutedEvent]
        | noOpportunity => simp [run, hst, hex, houtcome, isFlashLoanExecutedEvent]
        | opportunity opp =>
          simp [run, hst, hex, houtcome, hdry, isFlashLoanExecutedEvent]
    · simp [run, hst]
  · intro opp hdry houtcome hst hex
    simp [run, hst, hex, houtcome, hdry]

/-! ## Claim C3 -/

/-- Claim C3: the consecutive-failure counter is incremented on each scan
error and on each failed execution, reset to zero on a successful scan or a
successful trade; when it reaches the ceiling of 10 the strategy is stopped
(status Idle, interval cancelled); a tick on a non-running strategy does
nothing, and `start` returns a stopped strategy to Running. -/
theorem circuit_breaker (s : StratState) (env : TickEnv)
    (opp : ScannerOpportunity) (msg : String) :
    (s.status ≠ BotStatus.running → run s env = (s, [])) ∧
    (s.status = BotStatus.running → s.executionInProgress = false →
      env.scanOutcome = ScanOutcome.scanError msg →
      (run s env).1.consecutiveFailures = s.consecutiveFailures + 1 ∧
      (maxConsecutiveFailures ≤ s.consecutiveFailures + 1 →
        (run s env).1.status = BotStatus.idle ∧
        (run s env).1.intervalActive = false) ∧
      (s.consecutiveFailures + 1 < maxConsecutiveFailures →
        (run s env).1.status = s.status)) ∧
    (s.status = BotStatus.running → s.executionInProgress = false →
      env.scanOutcome = ScanOutcome.opportunity opp →
      isLiveMode env.config = false →
      (run s env).1.consecutiveFailures = 0) ∧
    (env.botWalletConfigured = true → env.flashArbConfigured = true →
      ((executeFlashLoan env.execEnv (execParams opp)).success = true →
        (executeOpportunity s env opp).1.consecutiveFailures = 0) ∧
      ((executeFlashLoan env.execEnv (execParams opp)).success = false →
        (executeOpportunity s env opp).1.consecutiveFailures = s.consecutiveFailures + 1 ∧
        (maxConsecutiveFailures ≤ s.consecutiveFailures + 1 →
          (executeOpportunity s env opp).1.status = BotStatus.idle ∧
          (executeOpportunity s env opp).1.intervalActive = false))) ∧
    ((stop s).status = BotStatus.idle ∧ (stop s).intervalActive = false ∧
      (start (stop s)).status = BotStatus.running ∧
      (start (stop s)).intervalActive = true) := by
  refine ⟨?_, ?_, ?_, ?_, ?_⟩
  · intro hst
    simp [run, hst]
  · intro hst hex houtcome
    refine ⟨?_, ?_, ?_⟩
    · rcases le_or_lt maxConsecutiveFailures (s.consecutiveFailures + 1) with hceil | hceil
      · simp [run, hst, houtcome, hex, hceil, stop]
      · simp [run, hst, houtcome, hex, not_le.mpr hceil]
    · intro hceil
      simp [run, hst, houtcome, hex, hceil, stop]
    · intro hlt
      have hnot : ¬ maxConsecutiveFailures ≤ s.consecutiveFailures + 1 := by omega
      simp [run, hst, houtcome, hex, hnot]
  · intro hst hex houtcome hdry
    simp [run, hst, hex, houtcome, hdry]
  · intro hw hc
    constructor
    · intro hsucc
      simp [executeOpportunity, hw, hc, hsucc]
    · intro hfail
      constructor
      · rcases le_or_lt maxConsecutiveFailures (s.consecutiveFailures + 1) with hceil | hceil
        · simp [executeOpportunity, hw, hc, hfail, hceil, stop]
        · simp [executeOpportunity, hw, hc, hfail, not_le.mpr hceil]
      · intro hceil
        simp [executeOpportunity, hw, hc, hfail, hceil, stop]
  · refine ⟨rfl, rfl, ?_, ?_⟩ <;> simp [start, stop]

/-! ## Claim C5 -/

theorem executeFlashLoan_success_inv (env : ExecEnv) (params : FlashLoanParams)
    (h : (executeFlashLoan env params).success = true) :
    preflightPassed env = true ∧
    ∃ hash r, env.writeContract = Except.ok hash ∧
      env.waitForReceipt = Except.ok r ∧ r.reverted = false ∧
      executeFlashLoan env params =
        { success := true, txHash := hash, gasUsed := some r.gasUsed, error := none } := by
  rcases env with ⟨wallet, paused, auth, gasp, suff, est, wr, rcpt⟩
  cases wallet
  · simp [executeFlashLoan, executeFlashLoanCore] at h
  · cases paused with
    | error m => simp [executeFlashLoan, executeFlashLoanCore] at h
    | ok b =>
      cases b
      · cases auth with
        | error m => simp [executeFlashLoan, executeFlashLoanCore, isBotAuthorized] at h
        | ok b2 =>
          cases b2
          · simp [executeFlashLoan, executeFlashLoanCore, isBotAuthorized] at h
          · cases gasp with
            | error m => simp [executeFlashLoan, executeFlashLoanCore, isBotAuthorized] at h
            | ok b3 =>
              cases b3
              · simp [executeFlashLoan, executeFlashLoanCore, isBotAuthorized] at h
              · cases suff with
                | error m =>
                  simp [executeFlashLoan, executeFlashLoanCore, isBotAuthorized] at h
                | ok b4 =>
                  cases b4
                  · simp [executeFlashLoan, executeFlashLoanCore, isBotAuthorized] at h
                  · cases est with
                    | error m =>
                      simp [executeFlashLoan, executeFlashLoanCore, isBotAuthorized] at h
                    | ok g =>
                      cases wr with
                      | error m =>
                        simp [executeFlashLoan, executeFlashLoanCore, isBotAuthorized] at h
                      | ok hash =>
                        cases rcpt with
                        | error m =>
                          simp [executeFlashLoan, executeFlashLoanCore, isBotAuthorized] at h
                        | ok r =>
                          cases hrev : r.reverted
                          · refine ⟨by simp [preflightPassed, isBotAuthorized], hash, r,
                              rfl, rfl, hrev, ?_⟩
                            simp [executeFlashLoan, executeFlashLoanCore,
                              isBotAuthorized, hrev]
                          · simp [executeFlashLoan, executeFlashLoanCore,
                              isBotAuthorized, hrev] at h
      · simp [executeFlashLoan, executeFlashLoanCore] at h

/-- Claim C5: the pre-flight gates run in order (wallet configured, contract
not paused, caller authorized, gas price under ceiling, gas balance
sufficient, gas estimation succeeds); the first failing gate short-circuits
with its specific reason string, the sentinel hash and no submission;
success = true holds only when the transaction was submitted, confirmed and
not reverted; a confirmed-but-reverted transaction yields success = false
with the distinct reverted reason and the real transaction hash. -/
theorem preflight_gate_order (env : ExecEnv) (params : FlashLoanParams) :
    (env.botWalletConfigured = false →
      executeFlashLoan env params =
        { success := false, txHash := sentinelTxHash, gasUsed := none,
          error := some "Bot wallet not configured (BOT_PRIVATE_KEY missing)" } ∧
      txSubmitted env = false) ∧
    (env.botWalletConfigured = true → env.pausedRead = Except.ok true →
      executeFlashLoan env params =
        { success := false, txHash := sentinelTxHash, gasUsed := none,
          error := some "Contract is paused" } ∧
      txSubmitted env = false) ∧
    (env.botWalletConfigured = true → env.pausedRead = Except.ok false →
      isBotAuthorized env = Except.ok false →
      executeFlashLoan env params =
        { success := false, txHash := sentinelTxHash, gasUsed := none,
          error := some "Bot wallet is not an authorized executor" } ∧
      txSubmitted env = false) ∧
    (env.botWalletConfigured = true → env.pausedRead = Except.ok false →
      isBotAuthorized env = Except.ok true → env.gasPriceRead = Except.ok false →
      executeFlashLoan env params =
        { success := false, txHash := sentinelTxHash, gasUsed := none,
          error := some "Gas price exceeds maximum" } ∧
      txSubmitted env = false) ∧
    (env.botWalletConfigured = true → env.pausedRead = Except.ok false →
      isBotAuthorized env = Except.ok true → env.gasPriceRead = Except.ok true →
      env.sufficientGasRead = Except.ok false →
      executeFlashLoan env params =
        { success := false, txHash := sentinelTxHash, gasUsed := none,
          error := some "Bot wallet has insufficient ETH for gas" } ∧
      txSubmitted env = false) ∧
    (∀ msg, env.botWalletConfigured = true → env.pausedRead = Except.ok false →
      isBotAuthorized env = Except.ok true → env.gasPriceRead = Except.ok true →
      env.sufficientGasRead = Except.ok true → env.estimateGas = Except.error msg →
      executeFlashLoan env params =
        { success := false, txHash := sentinelTxHash, gasUsed := none,
          error := some ("Gas estimation failed (arb may not be profitable): " ++ msg) } ∧
      txSubmitted env = false) ∧
    ((executeFlashLoan env params).success = true →
      txSubmitted env = true ∧
      ∃ hash r, env.writeContract = Except.ok hash ∧
        env.waitForReceipt = Except.ok r ∧ r.reverted = false ∧
        (executeFlashLoan env params).txHash = hash) ∧
    (∀ hash r, preflightPassed env = true → env.writeContract = Except.ok hash →
      env.waitForReceipt = Except.ok r → r.reverted = true →
      executeFlashLoan env params =
        { success := false, txHash := hash, gasUsed := some r.gasUsed,
          error := some "Transaction reverted - arbitrage not profitable" }) := by
  refine ⟨?_, ?_, ?_, ?_, ?_, ?_, ?_, ?_⟩
  · intro hw
    exact ⟨by simp [executeFlashLoan, executeFlashLoanCore, hw],
      by simp [txSubmitted, preflightPassed, hw]⟩
  · intro hw hp
    exact ⟨by simp [executeFlashLoan, executeFlashLoanCore, hw, hp],
      by simp [txSubmitted, preflightPassed, hw, hp]⟩
  · intro hw hp ha
    exact ⟨by simp [executeFlashLoan, executeFlashLoanCore, hw, hp, ha],
      by simp [txSubmitted, preflightPassed, hw, hp, ha]⟩
  · intro hw hp ha hg
    exact ⟨by simp [executeFlashLoan, executeFlashLoanCore, hw, hp, ha, hg],
      by simp [txSubmitted, preflightPassed, hw, hp, ha, hg]⟩
  · intro hw hp ha hg hs
    exact ⟨by simp [executeFlashLoan, executeFlashLoanCore, hw, hp, ha, hg, hs],
      by simp [txSubmitted, preflightPassed, hw, hp, ha, hg, hs]⟩
  · intro msg hw hp ha hg hs he
    exact ⟨by simp [executeFlashLoan, executeFlashLoanCore, hw, hp, ha, hg, hs, he],
      by simp [txSubmitted, preflightPassed, hw, hp, ha, hg, hs, he]⟩
  · intro hsucc
    obtain ⟨hpre, hash, r, hwr, hrc, hrev, heq⟩ :=
      executeFlashLoan_success_inv env params hsucc
    exact ⟨by simp [txSubmitted, hpre, hwr], hash, r, hwr, hrc, hrev, by rw [heq]⟩
  · intro hash r hpre hwr hrc hrev
    rcases env with ⟨wallet, paused, auth, gasp, suff, est, wr, rcpt⟩
    dsimp only at hwr hrc
    subst hwr
    subst hrc
    cases wallet
    · exact absurd hpre (by simp [preflightPassed])
    · cases paused with
      | error m => exact absurd hpre (by simp [preflightPassed])
      | ok b =>
        cases b
        · cases auth with
          | error m => exact absurd hpre (by simp [preflightPassed, isBotAuthorized])
          | ok b2 =>
            cases b2
            · exact absurd hpre (by simp [preflightPassed, isBotAuthorized])
            · cases gasp with
              | error m => exact absurd hpre (by simp [preflightPassed, isBotAuthorized])
              | ok b3 =>
                cases b3
                · exact absurd hpre (by simp [preflightPassed, isBotAuthorized])
                · cases suff with
                  | error m =>
                    exact absurd hpre (by simp [preflightPassed, isBotAuthorized])
                  | ok b4 =>
                    cases b4
                    · exact absurd hpre (by simp [preflightPassed, isBotAuthorized])
                    · cases est with
                      | error m =>
                        exact absurd hpre (by simp [preflightPassed, isBotAuthorized])
                      | ok g =>
                        simp [executeFlashLoan, executeFlashLoanCore,
                          isBotAuthorized, hrev]
        · exact absurd hpre (by simp [preflightPassed])

/-! ## Claim C8 -/

theorem minPricePool_cons (first a : PoolPrice) (t : List PoolPrice) :
    minPricePool first (a :: t) =
      minPricePool (if a.price < first.price then a else first) t := rfl

theorem maxPricePool_cons (first a : PoolPrice) (t : List PoolPrice) :
    maxPricePool first (a :: t) =
      maxPricePool (if a.price > first.price then a else first) t := rfl

theorem minPricePool_le (first : PoolPrice) (l : List PoolPrice) :
    (minPricePool first l).price ≤ first.price ∧
    ∀ q ∈ l, (minPricePool first l).price ≤ q.price := by
  induction l generalizing first with
  | nil => simp [minPricePool]
  | cons a t ih =>
    rw [minPricePool_cons]
    obtain ⟨h1, h2⟩ := ih (if a.price < first.price then a else first)
    by_cases hc : a.price < first.price
    · rw [if_pos hc] at h1 h2 ⊢
      refine ⟨h1.trans hc.le, ?_⟩
      intro q hq
      rcases List.mem_cons.mp hq with rfl | hq
      · exact h1
      · exact h2 q hq
    · rw [if_neg hc] at h1 h2 ⊢
      refine ⟨h1, ?_⟩
      intro q hq
      rcases List.mem_cons.mp hq with rfl | hq
      · exact h1.trans (not_lt.mp hc)
      · exact h2 q hq

theorem minPricePool_mem (first : PoolPrice) (l : List PoolPrice) :
    minPricePool first l = first ∨ minPricePool first l ∈ l := by
  induction l generalizing first with
  | nil => exact Or.inl rfl
  | cons a t ih =>
    rw [minPricePool_cons]
    rcases ih (if a.price < first.price then a else first) with h | h
    · by_cases hc : a.price < first.price
      · right
        rw [h, if_pos hc]
        exact List.mem_cons_self a t
      · left
        rw [h, if_neg hc]
    · right
      exact List.mem_cons_of_mem a h

theorem maxPricePool_ge (first : PoolPrice) (l : List PoolPrice) :
    first.price ≤ (maxPricePool first l).price ∧
    ∀ q ∈ l, q.price ≤ (maxPricePool first l).price := by
  induction l generalizing first with
  | nil => simp [maxPricePool]
  | cons a t ih =>
    rw [maxPricePool_cons]
    obtain ⟨h1, h2⟩ := ih (if a.price > first.price then a else first)
    by_cases hc : a.price > first.price
    · rw [if_pos hc] at h1 h2 ⊢
      refine ⟨hc.le.trans h1, ?_⟩
      intro q hq
      rcases List.mem_cons.mp hq with rfl | hq
      · exact h1
      · exact h2 q hq
    · rw [if_neg hc] at h1 h2 ⊢
      refine ⟨h1, ?_⟩
      intro q hq
      rcases List.mem_cons.mp hq with rfl | hq
      · exact (not_lt.mp hc).trans h1
      · exact h2 q hq

theorem maxPricePool_mem (first : PoolPrice) (l : List PoolPrice) :
    maxPricePool first l = first ∨ maxPricePool first l ∈ l := by
  induction l generalizing first with
  | nil => exact Or.inl rfl
  | cons a t ih =>
    rw [maxPricePool_cons]
    rcases ih (if a.price > first.price then a else first) with h | h
    · by_cases hc : a.price > first.price
      · right
        rw [h, if_pos hc]
        exact List.mem_cons_self a t
      · left
        rw [h, if_neg hc]
    · right
      exact List.mem_cons_of_mem a h

/-- Claim C8, amended: for every list of at least two successful pool
prices, findSpreadFromPrices takes the minimum-price pool as the buy leg and
the maximum-price pool as the sell leg (their fee tiers are reported, and
their addresses whenever an opportunity exists), computes the gross spread
as (maxPrice - minPrice) / minPrice x 10000 and the net spread as the gross
spread minus both fee tiers (in bps) and the fixed premium; the net-spread
arithmetic strictly decreases as either fee or the premium increases. (The
claim as stated, for every non-empty list, fails on one-element lists; see
the counterexample.) -/
theorem find_spread_min_max (p0 p1 : PoolPrice) (rest : List PoolPrice) :
    let prices := p0 :: p1 :: rest
    let minP := minPricePool p0 prices
    let maxP := maxPricePool p0 prices
    let r := findSpreadFromPrices prices
    (minP ∈ prices ∧ ∀ q ∈ prices, minP.price ≤ q.price) ∧
    (maxP ∈ prices ∧ ∀ q ∈ prices, q.price ≤ maxP.price) ∧
    r.spreadBps = (maxP.price - minP.price) / minP.price * 10000 ∧
    r.netSpreadBps =
      netSpreadFormula minP.price maxP.price minP.fee maxP.fee flashLoanPremiumBps ∧
    r.buyPoolFee = minP.fee ∧
    r.sellPoolFee = maxP.fee ∧
    (r.oppExists = true →
      r.buyPool = some minP.poolAddress ∧ r.sellPool = some maxP.poolAddress) ∧
    (∀ pmin pmax f fB g gB prem premB : ℚ,
      (f < fB → netSpreadFormula pmin pmax fB g prem <
        netSpreadFormula pmin pmax f g prem) ∧
      (g < gB → netSpreadFormula pmin pmax f gB prem <
        netSpreadFormula pmin pmax f g prem) ∧
      (prem < premB → netSpreadFormula pmin pmax f g premB <
        netSpreadFormula pmin pmax f g prem)) := by
  dsimp only
  refine ⟨⟨?_, (minPricePool_le p0 (p0 :: p1 :: rest)).2⟩,
    ⟨?_, (maxPricePool_ge p0 (p0 :: p1 :: rest)).2⟩, ?_, ?_, ?_, ?_, ?_, ?_⟩
  · rcases minPricePool_mem p0 (p0 :: p1 :: rest) with h | h
    · rw [h]
      exact List.mem_cons_self _ _
    · exact h
  · rcases maxPricePool_mem p0 (p0 :: p1 :: rest) with h | h
    · rw [h]
      exact List.mem_cons_self _ _
    · exact h
  · rfl
  · rfl
  · rfl
  · rfl
  · intro h
    simp only [findSpreadFromPrices] at h ⊢
    simp [h]
  · intro pmin pmax f fB g gB prem premB
    refine ⟨?_, ?_, ?_⟩ <;> intro h <;> simp only [netSpreadFormula] <;> linarith

/-- Counterexample to claim C8 as stated: on the non-empty single-price list
the code returns the all-zero record (net spread 0, no buy pool selected),
while the claimed formula gives -15 bps for that pool quoted twice. -/
theorem find_spread_singleton_counterexample :
    (findSpreadFromPrices [lonePoolPrice]).netSpreadBps = 0 ∧
    (findSpreadFromPrices [lonePoolPrice]).buyPool = none ∧
    netSpreadFormula lonePoolPrice.price lonePoolPrice.price lonePoolPrice.fee
      lonePoolPrice.fee flashLoanPremiumBps = -15 ∧
    (0 : ℚ) ≠ -15 := by
  refine ⟨rfl, rfl, ?_, by norm_num⟩
  norm_num [netSpreadFormula, lonePoolPrice, flashLoanPremiumBps]

/-! ## Scanner inversion and sizing bounds (claims C2 and C4) -/

theorem scan_some_inv (n : ℕ) (env : ScanEnv) (opp : ScannerOpportunity)
    (h : scan n env = some opp) :
    ∃ p, env.ethPriceUsd = some p ∧ p ≠ 0 ∧ opp.ethPriceUsd = p ∧
      MIN_NET_SPREAD_BPS ≤ opp.netSpreadBps ∧
      opp.recommendedSize =
        computeRecommendedSize
          (computeTargetSizeUsd opp.netSpreadBps p
            (scanDepths env).1 (scanDepths env).2) p := by
  rw [scan] at h
  by_cases hgas : env.gasAcceptable = false
  · rw [if_pos hgas] at h
    exact Option.noConfusion h
  rw [if_neg hgas] at h
  rcases henv : env.ethPriceUsd with _ | p
  · rw [henv] at h
    exact Option.noConfusion h
  rw [henv] at h
  dsimp only at h
  by_cases hp0 : p = 0
  · rw [if_pos hp0] at h
    exact Option.noConfusion h
  rw [if_neg hp0] at h
  rcases hgr : env.groupResults with _ | ⟨g0, gs⟩
  · rw [hgr] at h
    exact Option.noConfusion h
  rw [hgr] at h
  dsimp only at h
  split at h
  · exact Option.noConfusion h
  split at h
  rotate_left
  · exact Option.noConfusion h
  split at h
  · exact Option.noConfusion h
  by_cases hspread :
      (bestGroupResult g0 gs).result.netSpreadBps < MIN_NET_SPREAD_BPS
  · rw [if_pos hspread] at h
    exact Option.noConfusion h
  rw [if_neg hspread] at h
  split at h
  · exact Option.noConfusion h
  obtain rfl := (Option.some.inj h).symm
  exact ⟨p, rfl, hp0, rfl, not_lt.mp hspread, rfl⟩

theorem computeTargetSizeUsd_eq_noDepth (net p : ℚ) (d1 d2 : Option PoolDepth)
    (h : d1 = none ∨ d2 = none) :
    computeTargetSizeUsd net p d1 d2 =
      (if net > 15 then MAX_FLASH_LOAN_USD * 2 else MAX_FLASH_LOAN_USD) := by
  rcases d1 with _ | bd
  · rfl
  · rcases d2 with _ | sd
    · rfl
    · rcases h with h | h <;> exact Option.noConfusion h

theorem computeTargetSizeUsd_eq_depth (net p : ℚ) (bd sd : PoolDepth) :
    computeTargetSizeUsd net p (some bd) (some sd) =
      (if ((depthSafeSize bd sd : ℕ) : ℚ) / 10 ^ 18 * p <
          (if net > 15 then MAX_FLASH_LOAN_USD * 2 else MAX_FLASH_LOAN_USD) then
        ((depthSafeSize bd sd : ℕ) : ℚ) / 10 ^ 18 * p
      else
        (if net > 15 then MAX_FLASH_LOAN_USD * 2 else MAX_FLASH_LOAN_USD)) := rfl

theorem target_le_cap2 (net : ℚ) :
    (if net > 15 then MAX_FLASH_LOAN_USD * 2 else MAX_FLASH_LOAN_USD) ≤
      MAX_FLASH_LOAN_USD * 2 := by
  split
  · exact le_refl _
  · norm_num [MAX_FLASH_LOAN_USD]

theorem computeTargetSizeUsd_le_cap2 (net p : ℚ) (d1 d2 : Option PoolDepth) :
    computeTargetSizeUsd net p d1 d2 ≤ MAX_FLASH_LOAN_USD * 2 := by
  rcases d1 with _ | bd
  · rw [computeTargetSizeUsd_eq_noDepth net p none d2 (Or.inl rfl)]
    exact target_le_cap2 net
  · rcases d2 with _ | sd
    · rw [computeTargetSizeUsd_eq_noDepth net p (some bd) none (Or.inr rfl)]
      exact target_le_cap2 net
    · rw [computeTargetSizeUsd_eq_depth]
      split
      next hnet =>
        split
        next h => exact h.le
        next h => exact le_refl _
      next hnet =>
        split
        next h => exact h.le.trans (by norm_num [MAX_FLASH_LOAN_USD])
        next h => norm_num [MAX_FLASH_LOAN_USD]

theorem computeTargetSizeUsd_le_depth (net p : ℚ) (bd sd : PoolDepth) :
    computeTargetSizeUsd net p (some bd) (some sd) ≤
      ((depthSafeSize bd sd : ℕ) : ℚ) / 10 ^ 18 * p := by
  rw [computeTargetSizeUsd_eq_depth]
  split
  all_goals
    split
    next h => exact le_refl _
    next h => exact not_lt.mp h

theorem computeRecommendedSize_le (t p bound : ℚ) (hp : 0 < p) (h : t ≤ bound) :
    ((computeRecommendedSize t p : ℤ) : ℚ) ≤ bound / p * 10 ^ 18 := by
  have h1 : ((computeRecommendedSize t p : ℤ) : ℚ) ≤ t / p * 10 ^ 18 := ratFloor_le _
  refine h1.trans ?_
  gcongr

theorem find_wethusdc :
    List.find? (fun g => g.asset ++ "/" ++ g.target == "WETH/USDC") SCAN_GROUPS =
      some wethUsdcGroup := rfl

theorem target_size_at (net : ℚ) (h15 : 15 < net) :
    computeTargetSizeUsd net 2000 none none = 20000 := by
  rw [computeTargetSizeUsd_eq_noDepth net 2000 none none (Or.inl rfl), if_pos h15]
  norm_num [MAX_FLASH_LOAN_USD]

theorem size_at_20000 : computeRecommendedSize 20000 2000 = 10 ^ 19 := by
  rw [computeRecommendedSize, ratFloor_eq_floor,
    show (20000 : ℚ) / 2000 * 10 ^ 18 = ((10 ^ 19 : ℤ) : ℚ) by norm_num,
    Int.floor_intCast]

theorem scan_at16_eval : scan 1 (scanEnvNoDepth 16) = some oppAt16 := by
  rw [scan]
  simp only [scanEnvNoDepth, wethUsdcGroupResult, scanDepths, bestGroupResult, List.foldl]
  norm_num
  rw [find_wethusdc, target_size_at 16 (by norm_num), size_at_20000]
  have hid : "arb-" ++ toString (0 : ℕ) ++ "-" ++ toString (1 : ℕ) = "arb-0-1" := rfl
  rw [hid]
  norm_num [oppAt16, wethUsdcGroup, wethUsdcBuyPool, wethUsdcSellPool,
    MIN_NET_SPREAD_BPS, MIN_PROFIT_USD]

theorem scan_noDepth20_eval : scan 1 (scanEnvNoDepth 20) = some oppNoDepth20 := by
  rw [scan]
  simp only [scanEnvNoDepth, wethUsdcGroupResult, scanDepths, bestGroupResult, List.foldl]
  norm_num
  rw [find_wethusdc, target_size_at 20 (by norm_num), size_at_20000]
  have hid : "arb-" ++ toString (0 : ℕ) ++ "-" ++ toString (1 : ℕ) = "arb-0-1" := rfl
  rw [hid]
  norm_num [oppNoDepth20, oppAt16, wethUsdcGroup, wethUsdcBuyPool, wethUsdcSellPool,
    MIN_NET_SPREAD_BPS, MIN_PROFIT_USD]

theorem scan_below_eval : scan 1 (scanEnvNoDepth (31 / 2)) = none := by
  rw [scan]
  simp only [scanEnvNoDepth, wethUsdcGroupResult, scanDepths, bestGroupResult, List.foldl]
  norm_num
  rw [find_wethusdc]
  norm_num [MIN_NET_SPREAD_BPS]

/-! ## Claim C4 -/

/-- Claim C4, amended: the minimum net-spread gate is boundary inclusive: the
Scanner returns an opportunity whenever the best net spread is at or above
the 16 bps threshold (all other gates passing) and none when it is strictly
below; in particular, at exactly the threshold an opportunity is returned,
not rejected. -/
theorem spread_floor_boundary :
    (∀ n env opp, scan n env = some opp → MIN_NET_SPREAD_BPS ≤ opp.netSpreadBps) ∧
    scan 1 (scanEnvNoDepth 16) = some oppAt16 ∧
    oppAt16.netSpreadBps = MIN_NET_SPREAD_BPS ∧
    scan 1 (scanEnvNoDepth (31 / 2)) = none := by
  refine ⟨?_, scan_at16_eval, rfl, scan_below_eval⟩
  intro n env opp h
  obtain ⟨p, _, _, _, hge, _⟩ := scan_some_inv n env opp h
  exact hge

/-- Counterexample to claim C4 as stated: with the best net spread exactly
equal to the 16 bps threshold and every other gate passing, scan() returns
an opportunity, not none — the boundary is inclusive. -/
theorem spread_at_threshold_counterexample :
    scan 1 (scanEnvNoDepth 16) = some oppAt16 ∧
    oppAt16.netSpreadBps = MIN_NET_SPREAD_BPS := ⟨scan_at16_eval, rfl⟩

/-! ## Claim C2 -/

/-- Claim C2, amended: when depth is available for both legs, the
recommended notional never exceeds the depth-derived safe size nor
(in USD at the reference price) the global cap times the scale factor 2;
when depth is unavailable the bound is the global cap times the scale
factor 2, not the cap alone (see the counterexample). -/
theorem sizing_cap_invariant (n : ℕ) (env : ScanEnv) (opp : ScannerOpportunity)
    (p : ℚ) (bd sd : PoolDepth) :
    (scan n env = some opp → env.ethPriceUsd = some p → 0 < p →
      scanDepths env = (some bd, some sd) →
      ((opp.recommendedSize : ℚ) ≤ ((depthSafeSize bd sd : ℕ) : ℚ) ∧
        (opp.recommendedSize : ℚ) * p / 10 ^ 18 ≤ MAX_FLASH_LOAN_USD * 2)) ∧
    (scan n env = some opp → env.ethPriceUsd = some p → 0 < p →
      (opp.recommendedSize : ℚ) * p / 10 ^ 18 ≤ MAX_FLASH_LOAN_USD * 2) := by
  have main : ∀ (hscan : scan n env = some opp) (hp : env.ethPriceUsd = some p),
      0 < p →
      (opp.recommendedSize : ℚ) * p / 10 ^ 18 ≤ MAX_FLASH_LOAN_USD * 2 := by
    intro hscan hp hppos
    obtain ⟨q, hq, hq0, hoppq, hge, hsize⟩ := scan_some_inv n env opp hscan
    have hpq : p = q := Option.some.inj (hp.symm.trans hq)
    subst hpq
    rw [hsize]
    have hcap := computeTargetSizeUsd_le_cap2 opp.netSpreadBps p
      (scanDepths env).1 (scanDepths env).2
    have h1 := computeRecommendedSize_le
      (computeTargetSizeUsd opp.netSpreadBps p (scanDepths env).1 (scanDepths env).2)
      p (MAX_FLASH_LOAN_USD * 2) hppos hcap
    rw [div_le_iff₀ (by positivity : (0 : ℚ) < 10 ^ 18)]
    calc ((computeRecommendedSize
            (computeTargetSizeUsd opp.netSpreadBps p (scanDepths env).1 (scanDepths env).2)
            p : ℤ) : ℚ) * p
        ≤ MAX_FLASH_LOAN_USD * 2 / p * 10 ^ 18 * p :=
          mul_le_mul_of_nonneg_right h1 hppos.le
      _ = MAX_FLASH_LOAN_USD * 2 * 10 ^ 18 := by
          field_simp
  constructor
  · intro hscan hp hppos hdep
    refine ⟨?_, main hscan hp hppos⟩
    obtain ⟨q, hq, hq0, hoppq, hge, hsize⟩ := scan_some_inv n env opp hscan
    have hpq : p = q := Option.some.inj (hp.symm.trans hq)
    subst hpq
    rw [hdep] at hsize
    rw [hsize]
    have hb := computeTargetSizeUsd_le_depth opp.netSpreadBps p bd sd
    have h1 := computeRecommendedSize_le
      (computeTargetSizeUsd opp.netSpreadBps p (some bd) (some sd))
      p (((depthSafeSize bd sd : ℕ) : ℚ) / 10 ^ 18 * p) hppos hb
    have heq : ((depthSafeSize bd sd : ℕ) : ℚ) / 10 ^ 18 * p / p * 10 ^ 18 =
        ((depthSafeSize bd sd : ℕ) : ℚ) := by
      field_simp
      ring
    rw [heq] at h1
    exact h1
  · intro hscan hp hppos
    exact main hscan hp hppos

/-- Counterexample to claim C2 as stated: with depth unavailable for both
legs and a 20 bps net spread, the Scanner recommends 10 ETH — 20000 USD at
the 2000 USD reference price — which exceeds the global maximum flash-loan
notional of 10000 USD. -/
theorem sizing_cap_counterexample :
    scan 1 (scanEnvNoDepth 20) = some oppNoDepth20 ∧
    scanDepths (scanEnvNoDepth 20) = (none, none) ∧
    oppNoDepth20.recommendedSize = 10 ^ 19 ∧
    MAX_FLASH_LOAN_USD < (10 ^ 19 : ℚ) * 2000 / 10 ^ 18 := by
  refine ⟨scan_noDepth20_eval, rfl, rfl, by norm_num [MAX_FLASH_LOAN_USD]⟩

end LHC
